import Mathlib

/-!
Verification of the kaveesha-timekeeper repository: a shallow embedding of
its authorization layer (SQL row-level-security policies), its approval
state transitions, its privileged serverless handlers, and its client-side
weekly-draft persistence, together with theorems settling the frozen claims.

Conventions of the embedding:
- SQL uuid and text columns are Lean String; DECIMAL hours is Rat; DATE and
  timestamp columns are Nat day numbers (days since 1970-01-01).
- Database tables are Lean lists of rows; an UPDATE ... WHERE id = x is a
  map over the list guarded by the id; DELETE is a filter; INSERT appends.
- JavaScript truthiness of an optional string (undefined, null or empty
  string are falsy) is the jsTruthy predicate below.
-/

namespace Timekeeper

/-- Row of the user_roles table (migration 20251202142650). -/
structure RoleRow where
  user_id : String
  role : String
deriving DecidableEq, Repr

/-- Row of the projects table (unnamed migration creating projects). -/
structure Project where
  id : String
  name : String
deriving DecidableEq, Repr

/-- Row of the project_hods table (unnamed migration creating project_hods). -/
structure ProjectHod where
  project_id : String
  user_id : String
deriving DecidableEq, Repr

/-- Row of the timesheets table, after all migrations: base table from
migration 20251130034901, end_date added and date renamed to start_date in
20251202142650, status and reviewer columns added in 20251211022737.
The description column is referenced by the Reports page update and is
modelled from the spec (free-text description on a timesheet entry); the
migration declaring it is not among the sources. -/
structure Timesheet where
  id : String
  user_id : String
  name : String
  employee_id : String
  project : String
  hours : Rat
  start_date : Nat
  end_date : Nat
  status : String
  reviewed_by : Option String
  reviewed_at : Option Nat
  description : Option String
deriving DecidableEq, Repr

/-- The authorization-relevant database state: the tables consulted by the
row-level-security policies on timesheets. -/
structure AuthDB where
  user_roles : List RoleRow
  projects : List Project
  project_hods : List ProjectHod
deriving Repr

/-- SQL function public.has_role (migration 20251202142650): true when a
user_roles row with the given user and role exists. -/
def has_role (db : AuthDB) (uid role : String) : Bool :=
  db.user_roles.any fun r => r.user_id == uid && r.role == role

/-- SQL function public.is_project_hod and the EXISTS subquery of the HOD
policies: a project_hods row joins to a projects row whose name equals the
given project name, for the given user. -/
def is_project_hod (db : AuthDB) (uid pname : String) : Bool :=
  db.project_hods.any fun ph =>
    db.projects.any fun p =>
      ph.project_id == p.id && ph.user_id == uid && p.name == pname

/-- SELECT access to a timesheets row under the final policy set: the
permissive OR of policies Users can view own timesheets, Admins can view
all timesheets (both migration 20260204054430, which dropped the earlier
view-all policy) and HODs can view timesheets of their projects. -/
def canSelectTimesheet (db : AuthDB) (uid : String) (t : Timesheet) : Bool :=
  (uid == t.user_id) || has_role db uid "admin" || is_project_hod db uid t.project

/-- UPDATE access to a timesheets row: the permissive OR of policies Users
can update their own timesheets (migration 20251130034901), Admins can
update any timesheet (20260204054430) and HODs can update timesheets of
their projects. -/
def canUpdateTimesheet (db : AuthDB) (uid : String) (t : Timesheet) : Bool :=
  (uid == t.user_id) || has_role db uid "admin" || is_project_hod db uid t.project

/-- DELETE access to a timesheets row: the permissive OR of policies Users
can delete own timesheets and Admins can delete any timesheet (both
migration 20251206115809). No delete policy mentions project_hods. -/
def canDeleteTimesheet (db : AuthDB) (uid : String) (t : Timesheet) : Bool :=
  (uid == t.user_id) || has_role db uid "admin"

/-- Row of the notifications table (unnamed migration creating
notifications): recipient, title, message, type tag and read flag. -/
structure Notification where
  user_id : String
  title : String
  message : String
  type : String
  is_read : Bool
deriving DecidableEq, Repr

/-- Allowed values of the status column: CHECK status IN pending, approved,
rejected (migration 20251211022737). -/
def statusAllowed (s : String) : Bool :=
  s == "pending" || s == "approved" || s == "rejected"

/-- The CHECK constraints the database enforces on every stored timesheets
row: hours strictly positive (CREATE TABLE, migration 20251130034901) and
the status CHECK of migration 20251211022737. -/
def timesheetCheck (t : Timesheet) : Bool :=
  decide (0 < t.hours) && statusAllowed t.status

/-- Semantics of UPDATE timesheets SET ... WHERE id = tid: every matching
row is rewritten by the payload; the statement fails (returning none, table
unchanged) when a rewritten row violates a CHECK constraint. -/
def runUpdate (table : List Timesheet) (tid : String)
    (payload : Timesheet → Timesheet) : Option (List Timesheet) :=
  if (table.filter fun t => t.id == tid).all (fun t => timesheetCheck (payload t)) then
    some (table.map fun t => if t.id == tid then payload t else t)
  else none

/-- Semantics of INSERT INTO timesheets: the new rows must satisfy the
CHECK constraints and their ids must be fresh (primary key), otherwise the
statement fails and the table is unchanged. -/
def runInsert (table : List Timesheet) (rows : List Timesheet) :
    Option (List Timesheet) :=
  if rows.all timesheetCheck && rows.all (fun r => !(table.any fun t => t.id == r.id)) then
    some (table ++ rows)
  else none

/-- The client-visible application state: the timesheets and notifications
tables. -/
structure AppDB where
  timesheets : List Timesheet
  notifications : List Notification
deriving Repr

/-- Row a timesheet-entry form inserts (TimesheetForm and
WeeklyTimesheetForm pass user_id, name, employee_id, project, hours,
start_date, end_date); the remaining columns take their table defaults:
status pending, reviewer columns and description null; the id is generated
by the database. -/
def newTimesheet (rid uid nm emp proj : String) (h : Rat) (sd ed : Nat) : Timesheet :=
  { id := rid, user_id := uid, name := nm, employee_id := emp, project := proj
  , hours := h, start_date := sd, end_date := ed
  , status := "pending", reviewed_by := none, reviewed_at := none
  , description := none }

/-- The zod formSchema of TimesheetForm: name 2..100 characters,
employee_id 1..50, a project selected, hours a number with 0 < hours <= 24,
both dates present and end_date on or after start_date. Hours arrive
already parsed (the refine parses the string field) and dates are day
numbers. -/
def formSchemaOk (nm emp proj : String) (h : Rat) (sd ed : Nat) : Bool :=
  (2 ≤ nm.length) && (nm.length ≤ 100) &&
  (1 ≤ emp.length) && (emp.length ≤ 50) &&
  (1 ≤ proj.length) &&
  (decide (0 < h)) && (decide (h ≤ 24)) &&
  (sd ≤ ed)

/-- Per-day hour clamping of WeeklyTimesheetForm updateHours:
Math.min of 24 and Math.max of 0 and the typed value. -/
def clampHours (h : Rat) : Rat := min 24 (max 0 h)

/-- The update payload of handleStatusChange in the Reports page: set
status to the chosen value and stamp reviewer identity and time. -/
def statusChangePayload (reviewer : String) (newStatus : String) (now : Nat)
    (t : Timesheet) : Timesheet :=
  { t with status := newStatus, reviewed_by := some reviewer, reviewed_at := some now }

/-- JavaScript String.prototype.trim, as used by the handlers and forms:
drop leading and trailing whitespace characters. -/
def jsTrim (s : String) : String :=
  String.mk (((s.data.dropWhile Char.isWhitespace).reverse.dropWhile
    Char.isWhitespace).reverse)

/-- The update payload of handleUpdateDescription in the Reports page: the
description becomes the trimmed dialog text (null when blank); hours are
included in the payload only when the edited entry is pending and the
dialog hours field parsed to a number at least 0. The option models the
editHours string: none is an empty or unparseable field. -/
def editPayload (editingEntry : Timesheet) (editDescription : String)
    (editHours : Option Rat) (t : Timesheet) : Timesheet :=
  let withDescr :=
    { t with description :=
        if jsTrim editDescription == "" then none else some (jsTrim editDescription) }
  match editHours with
  | some h =>
      if editingEntry.status == "pending" && decide (0 ≤ h) then
        { withDescr with hours := h }
      else withDescr
  | none => withDescr

/-- The notification row handleStatusChange builds for the entry owner;
the isAdminCaller flag selects the reviewer label in the message. -/
def reviewNotification (entry : Timesheet) (isAdminCaller : Bool)
    (newStatus : String) : Notification :=
  { user_id := entry.user_id
  , title := "Timesheet " ++ (if newStatus == "approved" then "Approved" else "Rejected")
  , message := "Your timesheet for \"" ++ entry.project ++ "\" has been "
      ++ newStatus ++ " by " ++ (if isAdminCaller then "Admin" else "HOD") ++ "."
  , type := "timesheet_" ++ newStatus
  , is_read := false }

/-- Semantics of INSERT INTO notifications issued through the caller
session: the only INSERT policy on notifications is Admins can create
notifications, WITH CHECK has_role of the caller and admin (unnamed
migration creating notifications), so the statement succeeds exactly when
the caller holds the admin role and otherwise fails inserting nothing. -/
def runNotificationInsert (table : List Notification) (callerIsAdmin : Bool)
    (rows : List Notification) : Option (List Notification) :=
  if callerIsAdmin then some (table ++ rows) else none

/-- handleStatusChange of the Reports page, at its call sites: update the
entry row, then insert one notification addressed to the entry owner; a
failed update aborts before the notification (the thrown error is caught),
while a failed notification insert is only logged (notifError) and the
handler still reports success. The insert goes through the caller session,
so the row-level security of notifications applies: the isAdminCaller flag
of the page (role equals admin, read from the same user_roles table the
policy checks) decides whether the insert succeeds. -/
def applyStatusChange (db : AppDB) (entry : Timesheet) (reviewer : String)
    (isAdminCaller : Bool) (newStatus : String) (now : Nat) : AppDB :=
  match runUpdate db.timesheets entry.id (statusChangePayload reviewer newStatus now) with
  | none => db
  | some ts =>
      { timesheets := ts
      , notifications :=
          match runNotificationInsert db.notifications isAdminCaller
              [reviewNotification entry isAdminCaller newStatus] with
          | some ns => ns
          | none => db.notifications }

/-- handleUpdateDescription of the Reports page: update the edited row with
the description-and-maybe-hours payload; a failed update leaves the state
unchanged. -/
def applyEditEntry (db : AppDB) (editingEntry : Timesheet) (editDescription : String)
    (editHours : Option Rat) : AppDB :=
  match runUpdate db.timesheets editingEntry.id
      (editPayload editingEntry editDescription editHours) with
  | none => db
  | some ts => { db with timesheets := ts }

/-- handleDelete of the Reports and Timesheet pages: DELETE FROM timesheets
WHERE id = the given id. -/
def applyDelete (db : AppDB) (tid : String) : AppDB :=
  { db with timesheets := db.timesheets.filter fun t => !(t.id == tid) }

/-- Insert of a single form-built entry (TimesheetForm onSubmit); a failed
insert leaves the state unchanged. -/
def applyCreate (db : AppDB) (t : Timesheet) : AppDB :=
  match runInsert db.timesheets [t] with
  | none => db
  | some ts => { db with timesheets := ts }

/-- The operations the client application can issue against the timesheets
table: approve or reject from the Reports page, the edit dialog of the
Reports page, deletion, and creation through the entry forms. -/
inductive ClientOp where
  | statusChange (entry : Timesheet) (reviewer : String) (isAdminCaller : Bool)
      (newStatus : String) (now : Nat)
  | editEntry (entry : Timesheet) (editDescription : String) (editHours : Option Rat)
  | deleteEntry (tid : String)
  | createEntry (rid uid nm emp proj : String) (h : Rat) (sd ed : Nat)

/-- Availability of an operation in the rendered application: the approve
and reject buttons exist only on a fetched entry whose status is pending
and pass only approved or rejected as the new status; the edit dialog opens
on a fetched entry; delete and create are always offered. -/
def opAvailable (db : AppDB) : ClientOp → Prop
  | .statusChange entry _ _ newStatus _ =>
      entry ∈ db.timesheets ∧ entry.status = "pending" ∧
      (newStatus = "approved" ∨ newStatus = "rejected")
  | .editEntry entry _ _ => entry ∈ db.timesheets
  | .deleteEntry _ => True
  | .createEntry _ _ _ _ _ _ _ _ => True

/-- Effect of each client operation on the application state. -/
def applyOp (db : AppDB) : ClientOp → AppDB
  | .statusChange entry reviewer adm newStatus now =>
      applyStatusChange db entry reviewer adm newStatus now
  | .editEntry entry d h => applyEditEntry db entry d h
  | .deleteEntry tid => applyDelete db tid
  | .createEntry rid uid nm emp proj h sd ed =>
      applyCreate db (newTimesheet rid uid nm emp proj h sd ed)

/-- Helper: in a table whose ids are distinct, filtering on the id of a
member yields exactly that member. -/
theorem filter_id_eq_of_nodup (l : List Timesheet) (e : Timesheet)
    (he : e ∈ l) (hn : (l.map Timesheet.id).Nodup) :
    l.filter (fun t => t.id == e.id) = [e] := by
  induction l with
  | nil => cases he
  | cons a l ih =>
      simp only [List.map_cons, List.nodup_cons] at hn
      rcases List.mem_cons.mp he with rfl | hmem
      · have hrest : l.filter (fun t => t.id == e.id) = [] := by
          refine List.filter_eq_nil_iff.mpr fun t ht => ?_
          simp only [beq_iff_eq]
          exact fun h => hn.1 (h ▸ List.mem_map_of_mem Timesheet.id ht)
        simp [List.filter_cons, hrest]
      · have hne : a.id ≠ e.id := fun h =>
          hn.1 (h ▸ List.mem_map_of_mem Timesheet.id hmem)
        have := ih hmem hn.2
        simp [List.filter_cons, hne, this]

/-- Helper: observing two members of a distinct-id table with the same id
forces them to be the same row. -/
theorem eq_of_mem_of_id_eq (l : List Timesheet) (a b : Timesheet)
    (ha : a ∈ l) (hb : b ∈ l) (hn : (l.map Timesheet.id).Nodup)
    (h : a.id = b.id) : a = b :=
  List.inj_on_of_nodup_map hn ha hb h

/-- Helper: an update targeting a member of a distinct-id table succeeds
when the rewritten member satisfies the CHECK constraints. -/
theorem runUpdate_eq_some (table : List Timesheet) (e : Timesheet)
    (payload : Timesheet → Timesheet) (he : e ∈ table)
    (hn : (table.map Timesheet.id).Nodup)
    (hok : timesheetCheck (payload e) = true) :
    runUpdate table e.id payload =
      some (table.map fun t => if t.id == e.id then payload t else t) := by
  unfold runUpdate
  rw [filter_id_eq_of_nodup table e he hn]
  simp [hok]

/-- Helper: the status-change payload does not touch the id column. -/
theorem statusChangePayload_id (r ns : String) (now : Nat) (t : Timesheet) :
    (statusChangePayload r ns now t).id = t.id := rfl

/-- Helper: the edit payload does not touch the id column. -/
theorem editPayload_id (e : Timesheet) (d : String) (h : Option Rat)
    (t : Timesheet) : (editPayload e d h t).id = t.id := by
  cases h <;> simp only [editPayload] <;> split <;> rfl

/-- Helper: the edit payload does not touch the status column. -/
theorem editPayload_status (e : Timesheet) (d : String) (h : Option Rat)
    (t : Timesheet) : (editPayload e d h t).status = t.status := by
  cases h <;> simp only [editPayload] <;> split <;> rfl

/-- Helper: when the edited entry is no longer pending the edit payload
leaves the hours column alone. -/
theorem editPayload_hours_of_reviewed (e : Timesheet) (d : String)
    (h : Option Rat) (t : Timesheet) (he : e.status ≠ "pending") :
    (editPayload e d h t).hours = t.hours := by
  cases h <;> simp [editPayload, he]

/-- C2: over every operation the client application offers, an entry whose
status is approved or rejected never returns to pending and its hours never
change, while its description can still be edited (the edit dialog with a
nonblank description and no hours input rewrites the description and leaves
status and hours intact). Hypotheses: ids are distinct (primary key) and
every stored row satisfies the CHECK constraints. -/
theorem claim_c2_reviewed_entry_frozen (db : AppDB) (t : Timesheet)
    (hn : (db.timesheets.map Timesheet.id).Nodup)
    (hc : ∀ u ∈ db.timesheets, timesheetCheck u = true)
    (ht : t ∈ db.timesheets)
    (hs : t.status = "approved" ∨ t.status = "rejected") :
    (∀ op : ClientOp, opAvailable db op →
      ∀ t' ∈ (applyOp db op).timesheets, t'.id = t.id →
        t'.status ≠ "pending" ∧ t'.hours = t.hours) ∧
    (∀ d : String, jsTrim d ≠ "" →
      ∃ t' ∈ (applyOp db (.editEntry t d none)).timesheets,
        t'.id = t.id ∧ t'.description = some (jsTrim d) ∧
        t'.hours = t.hours ∧ t'.status = t.status) := by
  have htstat : t.status ≠ "pending" := by
    rcases hs with h | h <;> simp [h]
  constructor
  · intro op hav t' ht' hid
    cases op with
    | statusChange entry reviewer adm ns now =>
        obtain ⟨hentry, hpend, hns⟩ := hav
        have hok : timesheetCheck (statusChangePayload reviewer ns now entry) = true := by
          have hce := hc entry hentry
          simp only [timesheetCheck, Bool.and_eq_true] at hce
          rcases hns with h | h <;>
            simp [timesheetCheck, statusChangePayload, statusAllowed, h, hce.1]
        have hupd := runUpdate_eq_some db.timesheets entry
          (statusChangePayload reviewer ns now) hentry hn hok
        simp only [applyOp, applyStatusChange, hupd] at ht'
        obtain ⟨u, hu, huq⟩ := List.mem_map.mp ht'
        have hidpres : t'.id = u.id := by
          rcases eq_or_ne u.id entry.id with hcase | hcase <;>
            rw [← huq] <;> simp [hcase, statusChangePayload]
        have hut : u = t :=
          eq_of_mem_of_id_eq db.timesheets u t hu ht hn (hidpres.symm.trans hid)
        subst hut
        rcases eq_or_ne u.id entry.id with hcase | hcase
        · have hte : u = entry :=
            eq_of_mem_of_id_eq db.timesheets u entry hu hentry hn hcase
          rw [hte] at htstat
          exact absurd hpend htstat
        · rw [← huq]
          simp [hcase]
          exact htstat
    | editEntry entry d hOpt =>
        have hentry : entry ∈ db.timesheets := hav
        cases hru : runUpdate db.timesheets entry.id (editPayload entry d hOpt) with
        | none =>
            simp only [applyOp, applyEditEntry, hru] at ht'
            have : t' = t := eq_of_mem_of_id_eq db.timesheets t' t ht' ht hn hid
            subst this
            exact ⟨htstat, rfl⟩
        | some ts =>
            have hts : ts = db.timesheets.map
                (fun u => if u.id == entry.id then editPayload entry d hOpt u else u) := by
              unfold runUpdate at hru
              split at hru
              · exact (Option.some.inj hru).symm
              · exact Option.noConfusion hru
            simp only [applyOp, applyEditEntry, hru] at ht'
            rw [hts] at ht'
            obtain ⟨u, hu, huq⟩ := List.mem_map.mp ht'
            have hidpres : t'.id = u.id := by
              rcases eq_or_ne u.id entry.id with hcase | hcase <;>
                rw [← huq] <;> simp [hcase, editPayload_id]
            have hut : u = t :=
              eq_of_mem_of_id_eq db.timesheets u t hu ht hn (hidpres.symm.trans hid)
            subst hut
            rcases eq_or_ne u.id entry.id with hcase | hcase
            · have hte : u = entry :=
                eq_of_mem_of_id_eq db.timesheets u entry hu hentry hn hcase
              have hepend : entry.status ≠ "pending" := by
                rw [← hte]; exact htstat
              rw [← huq]
              simp only [hcase, beq_self_eq_true, if_true]
              refine ⟨?_, ?_⟩
              · rw [editPayload_status]; exact htstat
              · exact editPayload_hours_of_reviewed entry d hOpt u hepend
            · rw [← huq]
              simp [hcase]
              exact htstat
    | deleteEntry tid =>
        simp only [applyOp, applyDelete] at ht'
        have hmem := List.mem_of_mem_filter ht'
        have : t' = t := eq_of_mem_of_id_eq db.timesheets t' t hmem ht hn hid
        subst this
        exact ⟨htstat, rfl⟩
    | createEntry rid uid nm emp proj hh sd ed =>
        cases hri : runInsert db.timesheets [newTimesheet rid uid nm emp proj hh sd ed] with
        | none =>
            simp only [applyOp, applyCreate, hri] at ht'
            have : t' = t := eq_of_mem_of_id_eq db.timesheets t' t ht' ht hn hid
            subst this
            exact ⟨htstat, rfl⟩
        | some ts =>
            have hcond : ([newTimesheet rid uid nm emp proj hh sd ed].all timesheetCheck &&
                [newTimesheet rid uid nm emp proj hh sd ed].all
                  (fun r => !(db.timesheets.any fun t => t.id == r.id))) = true ∧
                ts = db.timesheets ++ [newTimesheet rid uid nm emp proj hh sd ed] := by
              unfold runInsert at hri
              split at hri
              · exact ⟨by assumption, (Option.some.inj hri).symm⟩
              · exact Option.noConfusion hri
            simp only [applyOp, applyCreate, hri] at ht'
            rw [hcond.2] at ht'
            rcases List.mem_append.mp ht' with hmem | hmem
            · have : t' = t := eq_of_mem_of_id_eq db.timesheets t' t hmem ht hn hid
              subst this
              exact ⟨htstat, rfl⟩
            · have hnew : t' = newTimesheet rid uid nm emp proj hh sd ed := by
                simpa using hmem
              have hfresh := hcond.1
              simp only [Bool.and_eq_true, List.all_cons, List.all_nil,
                Bool.and_true, Bool.not_eq_true'] at hfresh
              have hany : db.timesheets.any (fun u => u.id == rid) = false := hfresh.2
              have : t.id = rid := by
                rw [← hid, hnew]; rfl
              have : (db.timesheets.any fun u => u.id == rid) = true :=
                List.any_eq_true.mpr ⟨t, ht, by simp [this]⟩
              rw [hany] at this
              exact Bool.noConfusion this
  · intro d hd
    have hok : timesheetCheck (editPayload t d none t) = true := by
      have hct := hc t ht
      simpa [timesheetCheck, editPayload, statusAllowed] using hct
    have hupd := runUpdate_eq_some db.timesheets t (editPayload t d none) ht hn hok
    refine ⟨editPayload t d none t, ?_, editPayload_id t d none t, ?_, rfl, editPayload_status t d none t⟩
    · simp only [applyOp, applyEditEntry, hupd]
      exact List.mem_map.mpr ⟨t, ht, by simp⟩
    · simp [editPayload, hd]

/-- Concrete approved entry used by witnesses. -/
def tsApproved : Timesheet :=
  { id := "t9", user_id := "owner1", name := "Owner One", employee_id := "EMP1"
  , project := "Alpha", hours := 8, start_date := 19731, end_date := 19731
  , status := "approved", reviewed_by := some "admin1", reviewed_at := some 19732
  , description := none }

/-- Concrete one-row application state holding the approved entry. -/
def dbApproved : AppDB := { timesheets := [tsApproved], notifications := [] }

/-- Witness for C2: on the concrete approved entry, an edit attempt that
also types 50 into the hours field leaves status and hours untouched, and
an edit with only a description succeeds. -/
theorem claim_c2_reviewed_entry_frozen_witness :
    (∀ t' ∈ (applyOp dbApproved (.editEntry tsApproved "late note" (some 50))).timesheets,
        t'.id = tsApproved.id → t'.status ≠ "pending" ∧ t'.hours = tsApproved.hours) ∧
    (∃ t' ∈ (applyOp dbApproved (.editEntry tsApproved "late note" none)).timesheets,
        t'.id = tsApproved.id ∧ t'.description = some "late note" ∧
        t'.hours = tsApproved.hours ∧ t'.status = tsApproved.status) := by
  have h := claim_c2_reviewed_entry_frozen dbApproved tsApproved
    (by decide) (by decide) (by decide) (Or.inl rfl)
  refine ⟨h.1 (.editEntry tsApproved "late note" (some 50)) ?_, ?_⟩
  · show tsApproved ∈ dbApproved.timesheets
    exact List.mem_singleton.mpr rfl
  · have h2 := h.2 "late note" (by decide)
    have hjs : jsTrim "late note" = "late note" := by decide
    rw [hjs] at h2
    exact h2

/-- Concrete pending entry used by counterexamples and witnesses. -/
def tsPending : Timesheet :=
  { id := "t2", user_id := "owner1", name := "Owner One", employee_id := "EMP1"
  , project := "Alpha", hours := 8, start_date := 19731, end_date := 19731
  , status := "pending", reviewed_by := none, reviewed_at := none
  , description := none }

/-- Concrete one-row application state holding the pending entry. -/
def dbPending : AppDB := { timesheets := [tsPending], notifications := [] }

/-- Counterexample to C3: editing the pending entry with 50 typed into the
hours field is accepted by the client guard (50 is at least 0) and by the
database CHECK (50 is positive), so a row with hours 50, violating the
claimed bound of 24, is stored. -/
theorem claim_c3_counterexample :
    (applyOp dbPending (.editEntry tsPending "worked late" (some 50))).timesheets =
      [{ tsPending with description := some "worked late", hours := 50 }] ∧
    ¬((50 : Rat) ≤ 24) := by
  constructor
  · decide
  · norm_num

/-- Weekly-form row for one day: the submit loop stores one entry per day
with start_date and end_date both equal to that day. -/
def weeklyRow (rid uid nm emp proj : String) (h : Rat) (dayKey : Nat) : Timesheet :=
  newTimesheet rid uid nm emp proj h dayKey dayKey

/-- C3 amended: entries created through the forms satisfy the claimed
bounds: a TimesheetForm submission passing the zod schema yields a row with
0 < hours <= 24 and start_date <= end_date; a WeeklyTimesheetForm day row
(whose hours passed the 0..24 input clamp and the positive-hours submit
filter) likewise, with equal dates; and every row the database accepts has
positive hours. The database does not enforce the upper bound, so the
hours-edit operation can store hours above 24 (see the counterexample). -/
theorem claim_c3_amended_creation_bounds :
    (∀ (rid uid nm emp proj : String) (h : Rat) (sd ed : Nat),
      formSchemaOk nm emp proj h sd ed = true →
      0 < (newTimesheet rid uid nm emp proj h sd ed).hours ∧
      (newTimesheet rid uid nm emp proj h sd ed).hours ≤ 24 ∧
      (newTimesheet rid uid nm emp proj h sd ed).start_date ≤
        (newTimesheet rid uid nm emp proj h sd ed).end_date) ∧
    (∀ (rid uid nm emp proj : String) (raw : Rat) (dayKey : Nat),
      0 < clampHours raw →
      0 < (weeklyRow rid uid nm emp proj (clampHours raw) dayKey).hours ∧
      (weeklyRow rid uid nm emp proj (clampHours raw) dayKey).hours ≤ 24 ∧
      (weeklyRow rid uid nm emp proj (clampHours raw) dayKey).start_date =
        (weeklyRow rid uid nm emp proj (clampHours raw) dayKey).end_date) ∧
    (∀ t : Timesheet, timesheetCheck t = true → 0 < t.hours) := by
  refine ⟨?_, ?_, ?_⟩
  · intro rid uid nm emp proj h sd ed hok
    simp only [formSchemaOk, Bool.and_eq_true, decide_eq_true_eq] at hok
    exact ⟨hok.1.1.2, hok.1.2, by simpa [newTimesheet] using hok.2⟩
  · intro rid uid nm emp proj raw dayKey hpos
    refine ⟨hpos, ?_, rfl⟩
    simpa [weeklyRow, newTimesheet, clampHours] using min_le_left (24 : Rat) (max 0 raw)
  · intro t hok
    simp only [timesheetCheck, Bool.and_eq_true, decide_eq_true_eq] at hok
    exact hok.1

/-- Witness for the amended C3: the concrete zod-valid form input with 8
hours on one day yields a row within bounds, and a raw weekly input of 30
clamps to 24. -/
theorem claim_c3_amended_creation_bounds_witness :
    formSchemaOk "Owner One" "EMP1" "Alpha" 8 19731 19731 = true ∧
    (0 < (newTimesheet "t3" "owner1" "Owner One" "EMP1" "Alpha" 8 19731 19731).hours ∧
     (newTimesheet "t3" "owner1" "Owner One" "EMP1" "Alpha" 8 19731 19731).hours ≤ 24 ∧
     (newTimesheet "t3" "owner1" "Owner One" "EMP1" "Alpha" 8 19731 19731).start_date ≤
       (newTimesheet "t3" "owner1" "Owner One" "EMP1" "Alpha" 8 19731 19731).end_date) ∧
    0 < clampHours 30 ∧
    (0 < (weeklyRow "t4" "owner1" "Owner One" "EMP1" "Alpha" (clampHours 30) 19731).hours ∧
     (weeklyRow "t4" "owner1" "Owner One" "EMP1" "Alpha" (clampHours 30) 19731).hours ≤ 24 ∧
     (weeklyRow "t4" "owner1" "Owner One" "EMP1" "Alpha" (clampHours 30) 19731).start_date =
       (weeklyRow "t4" "owner1" "Owner One" "EMP1" "Alpha" (clampHours 30) 19731).end_date) := by
  refine ⟨by decide, claim_c3_amended_creation_bounds.1 "t3" "owner1" "Owner One" "EMP1" "Alpha"
    8 19731 19731 (by decide), by decide,
    claim_c3_amended_creation_bounds.2.1 "t4" "owner1" "Owner One" "EMP1" "Alpha" 30 19731
      (by decide)⟩

/-- Helper: filtering the updated table on the target id is the same as
updating the rows the filter selects, because the payloads preserve ids. -/
theorem filter_id_map_update (l : List Timesheet) (eid : String)
    (payload : Timesheet → Timesheet) (hpres : ∀ t, (payload t).id = t.id) :
    ((l.map fun t => if t.id == eid then payload t else t).filter
        (fun t => t.id == eid)) =
      (l.filter (fun t => t.id == eid)).map payload := by
  induction l with
  | nil => rfl
  | cons a l ih =>
      cases hb : (a.id == eid) with
      | true =>
          have hb2 : ((payload a).id == eid) = true := by rw [hpres a]; exact hb
          rw [List.map_cons, if_pos hb,
            List.filter_cons_of_pos (p := fun (t : Timesheet) => t.id == eid) hb2,
            List.filter_cons_of_pos (p := fun (t : Timesheet) => t.id == eid) hb,
            List.map_cons, ih]
      | false =>
          have hb1 : ¬((a.id == eid) = true) := by simp [hb]
          rw [List.map_cons, if_neg hb1,
            List.filter_cons_of_neg (p := fun (t : Timesheet) => t.id == eid) hb1,
            List.filter_cons_of_neg (p := fun (t : Timesheet) => t.id == eid) hb1, ih]

/-- C8 as the code behaves: a review of a pending entry stamps the chosen
terminal status, the reviewer id and the review time onto exactly the
reviewed row; an admin reviewer additionally appends exactly one
notification addressed to the entry owner tagging the outcome and naming
the project; but a non-admin (department-head) reviewer appends none,
because the only INSERT policy on notifications is admin-only and the
failed insert is caught while success is still reported — contradicting
the claimed exactly-one notification for the department-head scenario.
Hypotheses: distinct ids, stored rows pass the CHECK constraints, the
entry is a stored pending row, and the new status is approved or
rejected. -/
theorem claim_c8_review_stamps_without_hod_notification (db : AppDB)
    (entry : Timesheet) (reviewer : String) (adm : Bool) (ns : String) (now : Nat)
    (hn : (db.timesheets.map Timesheet.id).Nodup)
    (hc : ∀ u ∈ db.timesheets, timesheetCheck u = true)
    (he : entry ∈ db.timesheets)
    (hpend : entry.status = "pending")
    (hns : ns = "approved" ∨ ns = "rejected") :
    ((applyStatusChange db entry reviewer adm ns now).timesheets.filter
        (fun t => t.id == entry.id) =
      [{ entry with
          status := ns
          reviewed_by := some reviewer
          reviewed_at := some now }]) ∧
    (adm = true →
      (applyStatusChange db entry reviewer adm ns now).notifications =
        db.notifications ++ [reviewNotification entry true ns]) ∧
    (adm = false →
      (applyStatusChange db entry reviewer adm ns now).notifications =
        db.notifications) := by
  have hok : timesheetCheck (statusChangePayload reviewer ns now entry) = true := by
    have hce := hc entry he
    simp only [timesheetCheck, Bool.and_eq_true] at hce
    rcases hns with h | h <;>
      simp [timesheetCheck, statusChangePayload, statusAllowed, h, hce.1]
  have hupd := runUpdate_eq_some db.timesheets entry
    (statusChangePayload reviewer ns now) he hn hok
  refine ⟨?_, ?_, ?_⟩
  · simp only [applyStatusChange, hupd]
    rw [filter_id_map_update db.timesheets entry.id
      (statusChangePayload reviewer ns now) (fun t => rfl)]
    rw [filter_id_eq_of_nodup db.timesheets entry he hn]
    rfl
  · intro h
    subst h
    simp only [applyStatusChange, hupd, runNotificationInsert, if_true]
  · intro h
    subst h
    simp only [applyStatusChange, hupd, runNotificationInsert, Bool.false_eq_true,
      if_false]

/-- Witness for C8 at the failing input: the department head hod1 (not an
admin) approves the concrete pending entry: the row is stamped approved
but no notification row exists afterwards, while the same approval by the
admin creates exactly the one owner notification. -/
theorem claim_c8_review_stamps_without_hod_notification_witness :
    ((applyStatusChange dbPending tsPending "hod1" false "approved" 19732).timesheets.filter
        (fun t => t.id == tsPending.id) =
      [{ tsPending with
          status := "approved"
          reviewed_by := some "hod1"
          reviewed_at := some 19732 }]) ∧
    (applyStatusChange dbPending tsPending "hod1" false "approved" 19732).notifications =
      [] ∧
    (applyStatusChange dbPending tsPending "admin1" true "approved" 19732).notifications =
      [ { user_id := "owner1"
        , title := "Timesheet Approved"
        , message := "Your timesheet for \"Alpha\" has been approved by Admin."
        , type := "timesheet_approved"
        , is_read := false } ] := by
  have h1 := claim_c8_review_stamps_without_hod_notification dbPending tsPending
    "hod1" false "approved" 19732 (by decide) (by decide) (by decide) rfl (Or.inl rfl)
  have h2 := claim_c8_review_stamps_without_hod_notification dbPending tsPending
    "admin1" true "approved" 19732 (by decide) (by decide) (by decide) rfl (Or.inl rfl)
  refine ⟨h1.1, h1.2.2 rfl, ?_⟩
  rw [h2.2.1 rfl]
  decide

/-- Row of the profiles table: base columns from the unnamed migration
creating profiles, employee_id back-filled by later migrations and
password_changed_at written by the update-password handler. -/
structure Profile where
  id : String
  email : String
  display_name : Option String
  employee_id : Option String
  password_changed_at : Option Nat
deriving DecidableEq, Repr

/-- Identity-provider account record (auth.users) as far as the handlers
touch it: id, email and credential. -/
structure AuthUser where
  id : String
  email : String
  password : String
deriving DecidableEq, Repr

/-- Server-side state read and written by the privileged handlers. -/
structure ServerDB where
  auth_users : List AuthUser
  profiles : List Profile
  user_roles : List RoleRow
  notifications : List Notification
deriving DecidableEq, Repr

/-- The has_role SQL function applied to the server state (every handler
calls the rpc has_role on the calling user with role admin). -/
def srv_has_role (db : ServerDB) (uid role : String) : Bool :=
  db.user_roles.any fun r => r.user_id == uid && r.role == role

/-- JavaScript truthiness of an optional string field: undefined, null and
the empty string are falsy. -/
def jsTruthy : Option String → Bool
  | none => false
  | some s => s != ""

/-- JSON envelope a handler responds with: HTTP status, optional error
message, success flag and optional created-user id. -/
structure HResponse where
  status : Nat
  error : Option String
  success : Bool
  userId : Option String
deriving DecidableEq, Repr

/-- Error response with the given status and message. -/
def errResp (code : Nat) (msg : String) : HResponse :=
  { status := code, error := some msg, success := false, userId := none }

/-- Plain success response. -/
def okResp : HResponse :=
  { status := 200, error := none, success := true, userId := none }

/-- The authentication prefix shared verbatim by every privileged handler:
a missing Authorization header gives 401; a credential that does not
resolve to a user gives 401 Unauthorized; a resolved caller without the
admin role gives 403 Admin access required. The caller argument models the
outcome of auth.getUser on the header credential (none when invalid). -/
def adminGate (db : ServerDB) (authHeader caller : Option String) :
    Except HResponse String :=
  match authHeader with
  | none => .error (errResp 401 "No authorization header")
  | some _ =>
    match caller with
    | none => .error (errResp 401 "Unauthorized")
    | some uid =>
      if srv_has_role db uid "admin" then .ok uid
      else .error (errResp 403 "Admin access required")

/-- The admin-update-role handler: after the gate, requires userId and
newRole, requires the role to be admin, user or hod, refuses a self-change
away from admin, then deletes every user_roles row of the target and
inserts the one new row. -/
def updateRoleHandler (db : ServerDB) (authHeader caller : Option String)
    (userId newRole : Option String) : HResponse × ServerDB :=
  match adminGate db authHeader caller with
  | .error r => (r, db)
  | .ok uid =>
    match userId, newRole with
    | some target, some role =>
      if target == "" || role == "" then
        (errResp 400 "userId and newRole are required", db)
      else if !(role == "admin" || role == "user" || role == "hod") then
        (errResp 400 "Invalid role", db)
      else if target == uid && role != "admin" then
        (errResp 400 "Cannot change your own admin role", db)
      else
        (okResp, { db with user_roles :=
            (db.user_roles.filter fun r => !(r.user_id == target)) ++ [⟨target, role⟩] })
    | _, _ => (errResp 400 "userId and newRole are required", db)

/-- Normalization the update-employee-id handler applies before writing:
the trimmed value, with a blank or absent input becoming null. -/
def normalizeEmpId : Option String → Option String
  | some e => if jsTrim e == "" then none else some (jsTrim e)
  | none => none

/-- The admin-update-employee-id handler: after the gate, requires userId;
when the input is truthy and nonblank after trimming, rejects it if another
profile already holds exactly the trimmed value; otherwise writes the
normalized value onto the target profile. -/
def updateEmployeeIdHandler (db : ServerDB) (authHeader caller : Option String)
    (userId employeeId : Option String) : HResponse × ServerDB :=
  match adminGate db authHeader caller with
  | .error r => (r, db)
  | .ok _ =>
    match userId with
    | none => (errResp 400 "userId is required", db)
    | some target =>
      if target == "" then (errResp 400 "userId is required", db)
      else
        let dup : Bool :=
          match employeeId with
          | some e => e != "" && jsTrim e != "" &&
              (db.profiles.any fun p => p.employee_id == some (jsTrim e) && p.id != target)
          | none => false
        if dup then
          (errResp 400 "Employee ID is already in use by another user", db)
        else
          (okResp, { db with profiles := db.profiles.map fun p =>
              if p.id == target then { p with employee_id := normalizeEmpId employeeId }
              else p })

/-- The admin-update-password handler: after the gate, requires both
fields, requires at least six characters, updates the credential of the
target identity-provider account (failing 400 when the account does not
exist) and stamps password_changed_at on the profile. -/
def updatePasswordHandler (db : ServerDB) (authHeader caller : Option String)
    (userId newPassword : Option String) (now : Nat) : HResponse × ServerDB :=
  match adminGate db authHeader caller with
  | .error r => (r, db)
  | .ok _ =>
    match userId, newPassword with
    | some target, some pw =>
      if target == "" || pw == "" then
        (errResp 400 "Missing userId or newPassword", db)
      else if pw.length < 6 then
        (errResp 400 "Password must be at least 6 characters", db)
      else if !(db.auth_users.any fun u => u.id == target) then
        (errResp 400 "User not found", db)
      else
        (okResp,
          { db with
              auth_users := db.auth_users.map fun u =>
                if u.id == target then { u with password := pw } else u
              profiles := db.profiles.map fun p =>
                if p.id == target then { p with password_changed_at := some now } else p })
    | _, _ => (errResp 400 "Missing userId or newPassword", db)

/-- The admin-list-users handler: after the gate the body only reads
(profiles, project assignments and roles, joined client-side), so the
state is returned unchanged with a 200. -/
def listUsersHandler (db : ServerDB) (authHeader caller : Option String) :
    HResponse × ServerDB :=
  match adminGate db authHeader caller with
  | .error r => (r, db)
  | .ok _ => (okResp, db)

/-- One row the notify-missing-empid handler inserts. -/
def empIdNotification (uid : String) : Notification :=
  { user_id := uid
  , title := "Employee ID Required"
  , message := "Please setup your Employee ID to complete your profile."
  , type := "empid_setup"
  , is_read := false }

/-- The notify-missing-empid handler: after the gate, fetches profiles
whose employee_id is null or the empty string, re-filters them client-side
for a falsy or blank-after-trim value, drops those that already have an
unread notification of type empid_setup, and batch-inserts one
notification per remaining profile. -/
def notifyMissingEmpIdHandler (db : ServerDB) (authHeader caller : Option String) :
    HResponse × ServerDB :=
  match adminGate db authHeader caller with
  | .error r => (r, db)
  | .ok _ =>
    let fetched := db.profiles.filter fun p =>
      p.employee_id == none || p.employee_id == some ""
    let usersToNotify := fetched.filter fun p =>
      match p.employee_id with
      | none => true
      | some e => e == "" || jsTrim e == ""
    if usersToNotify.isEmpty then (okResp, db)
    else
      let existing := (db.notifications.filter fun n =>
        n.type == "empid_setup" && n.is_read == false).map Notification.user_id
      let toInsert := (usersToNotify.filter fun u => !(existing.contains u.id)).map
        fun u => empIdNotification u.id
      if toInsert.isEmpty then (okResp, db)
      else (okResp, { db with notifications := db.notifications ++ toInsert })

/-- split_part(email, at-sign, 1) as used by the signup trigger: the part
of the email before the first at-sign. -/
def splitPart1 (email : String) : String :=
  String.mk (email.data.takeWhile fun c => c != '@')

/-- The signup trigger handle_new_user in its final form (migration
20260102154055): inserts a profile whose display_name is the COALESCE of
the first_name and display_name signup metadata and the email local part,
and whose employee_id comes from the employee_id signup metadata. -/
def handle_new_user (uid email : String)
    (metaFirst metaDisplay metaEmpId : Option String) : Profile :=
  { id := uid, email := email
  , display_name := some (metaFirst.getD (metaDisplay.getD (splitPart1 email)))
  , employee_id := metaEmpId
  , password_changed_at := none }

/-- The admin-create-user handler: after the gate, requires all five
fields, requires a six-character password, rejects an employee id already
present on any profile, rejects an already-registered email, then creates
the identity-provider account (the signup triggers insert the profile row
from the metadata and the default user role), and finally back-fills
display_name and employee_id onto the profile; a failure of that back-fill
(the profileUpdateFails parameter) is logged and deliberately does not fail
the operation. The newId parameter is the id the identity provider
generates. -/
def createUserHandler (db : ServerDB) (authHeader caller : Option String)
    (firstName lastName employeeId email password : Option String)
    (newId : String) (profileUpdateFails : Bool) : HResponse × ServerDB :=
  match adminGate db authHeader caller with
  | .error r => (r, db)
  | .ok _ =>
    if !(jsTruthy firstName && jsTruthy lastName && jsTruthy employeeId &&
        jsTruthy email && jsTruthy password) then
      (errResp 400 "All fields are required", db)
    else
      match firstName, employeeId, email, password with
      | some fn, some emp, some em, some pw =>
        if pw.length < 6 then
          (errResp 400 "Password must be at least 6 characters", db)
        else if db.profiles.any fun p => p.employee_id == some emp then
          (errResp 400 "Employee ID already exists", db)
        else if db.auth_users.any fun u => u.email == em then
          (errResp 400 "Email already registered", db)
        else
          let displayName := fn
          let afterCreate : ServerDB :=
            { db with
                auth_users := db.auth_users ++ [⟨newId, em, pw⟩]
                profiles := db.profiles ++
                  [handle_new_user newId em (some fn) (some displayName) (some emp)]
                user_roles := db.user_roles ++ [⟨newId, "user"⟩] }
          let final : ServerDB :=
            if profileUpdateFails then afterCreate
            else
              { afterCreate with profiles := afterCreate.profiles.map fun p =>
                  if p.id == newId then
                    { p with display_name := some displayName, employee_id := some emp }
                  else p }
          ({ status := 200, error := none, success := true, userId := some newId },
            final)
      | _, _, _, _ => (errResp 400 "All fields are required", db)

/-- Helper: a failed gate responds 401 or 403, never 200. -/
theorem adminGate_error_status (db : ServerDB) (ah caller : Option String)
    (r : HResponse) (h : adminGate db ah caller = .error r) :
    r.status = 401 ∨ r.status = 403 := by
  unfold adminGate at h
  cases ah with
  | none =>
      cases h
      left; rfl
  | some tok =>
      cases caller with
      | none =>
          cases h
          left; rfl
      | some uid =>
          by_cases hr : srv_has_role db uid "admin"
          · simp [hr] at h
          · simp only [hr, Bool.false_eq_true, if_false, Except.error.injEq] at h
            right
            rw [← h]
            rfl

/-- C4: whenever the update-role handler completes with 200 for a target
account, the user_roles table holds exactly one row for that account and
its role is the requested one. -/
theorem claim_c4_single_role_row (db : ServerDB) (ah caller : Option String)
    (target role : String)
    (hsucc : (updateRoleHandler db ah caller (some target) (some role)).1.status = 200) :
    (updateRoleHandler db ah caller (some target) (some role)).2.user_roles.filter
        (fun r => r.user_id == target) = [⟨target, role⟩] := by
  cases hg : adminGate db ah caller with
  | error r =>
      simp only [updateRoleHandler, hg] at hsucc
      rcases adminGate_error_status db ah caller r hg with h | h <;> omega
  | ok uid =>
      simp only [updateRoleHandler, hg] at hsucc ⊢
      by_cases h1 : (target == "" || role == "") = true
      · rw [if_pos h1] at hsucc
        exact absurd hsucc (by simp [errResp])
      · rw [if_neg h1] at hsucc ⊢
        by_cases h2 : (!(role == "admin" || role == "user" || role == "hod")) = true
        · rw [if_pos h2] at hsucc
          exact absurd hsucc (by simp [errResp])
        · rw [if_neg h2] at hsucc ⊢
          by_cases h3 : (target == uid && role != "admin") = true
          · rw [if_pos h3] at hsucc
            exact absurd hsucc (by simp [errResp])
          · rw [if_neg h3] at hsucc ⊢
            show ((db.user_roles.filter fun r => !(r.user_id == target)) ++
                  ([⟨target, role⟩] : List RoleRow)).filter
                (fun r => r.user_id == target) = [⟨target, role⟩]
            rw [List.filter_append]
            have hnil : (db.user_roles.filter fun r => !(r.user_id == target)).filter
                (fun r => r.user_id == target) = [] := by
              rw [List.filter_filter]
              refine List.filter_eq_nil_iff.mpr fun a _ => ?_
              simp
            rw [hnil]
            simp

/-- Concrete server state for witnesses: one admin and one regular user. -/
def srvDb0 : ServerDB :=
  { auth_users := [⟨"admin1", "a@x.com", "secret1"⟩, ⟨"u1", "u1@x.com", "pw1234"⟩]
  , profiles :=
      [⟨"admin1", "a@x.com", some "Admin", some "EMP0", none⟩,
       ⟨"u1", "u1@x.com", some "User One", some "EMP1", none⟩]
  , user_roles := [⟨"admin1", "admin"⟩, ⟨"u1", "user"⟩]
  , notifications := [] }

/-- Witness for C4: the admin promotes u1 to hod; afterwards u1 has exactly
the one role row hod. -/
theorem claim_c4_single_role_row_witness :
    (updateRoleHandler srvDb0 (some "tok") (some "admin1") (some "u1")
        (some "hod")).1.status = 200 ∧
    (updateRoleHandler srvDb0 (some "tok") (some "admin1") (some "u1")
        (some "hod")).2.user_roles.filter (fun r => r.user_id == "u1") =
      [⟨"u1", "hod"⟩] :=
  ⟨by decide,
   claim_c4_single_role_row srvDb0 (some "tok") (some "admin1") "u1" "hod" (by decide)⟩

/-- C5: an admin calling update-role on their own account with any role
other than admin gets a 400 with an error message and the state is
unchanged (this covers the explicit self-demotion guard as well as the
earlier required-field and valid-role rejections). -/
theorem claim_c5_self_demotion_guard (db : ServerDB) (tok caller role : String)
    (hcaller : caller ≠ "")
    (hadmin : srv_has_role db caller "admin" = true)
    (hrole : role ≠ "admin") :
    (updateRoleHandler db (some tok) (some caller) (some caller) (some role)).1.status = 400 ∧
    (updateRoleHandler db (some tok) (some caller) (some caller) (some role)).1.error ≠ none ∧
    (updateRoleHandler db (some tok) (some caller) (some caller) (some role)).2 = db := by
  have hg : adminGate db (some tok) (some caller) = .ok caller := by
    simp [adminGate, hadmin]
  simp only [updateRoleHandler, hg]
  by_cases h1 : (caller == "" || role == "") = true
  · rw [if_pos h1]
    exact ⟨rfl, by simp [errResp], rfl⟩
  · rw [if_neg h1]
    by_cases h2 : (!(role == "admin" || role == "user" || role == "hod")) = true
    · rw [if_pos h2]
      exact ⟨rfl, by simp [errResp], rfl⟩
    · rw [if_neg h2]
      have h3 : (caller == caller && role != "admin") = true := by
        simp [hrole]
      rw [if_pos h3]
      exact ⟨rfl, by simp [errResp], rfl⟩

/-- Witness for C5: the admin tries to demote themselves to user and gets a
400 with no state change. -/
theorem claim_c5_self_demotion_guard_witness :
    (updateRoleHandler srvDb0 (some "tok") (some "admin1") (some "admin1")
        (some "user")).1.status = 400 ∧
    (updateRoleHandler srvDb0 (some "tok") (some "admin1") (some "admin1")
        (some "user")).1.error ≠ none ∧
    (updateRoleHandler srvDb0 (some "tok") (some "admin1") (some "admin1")
        (some "user")).2 = srvDb0 :=
  claim_c5_self_demotion_guard srvDb0 "tok" "admin1" "user"
    (by decide) (by decide) (by decide)

/-- C6: for an admin call of update-employee-id on a nonempty target id:
a nonblank trimmed value held by a different profile gives a 400 with no
write; when no different profile holds the trimmed value the handler
responds 200 and writes the normalized value onto the target profile; the
normalization maps a blank input and an absent input to null. -/
theorem claim_c6_employee_id_uniqueness (db : ServerDB) (tok caller target : String)
    (employeeId : Option String)
    (hadmin : srv_has_role db caller "admin" = true)
    (htarget : target ≠ "") :
    (∀ e : String, employeeId = some e → jsTrim e ≠ "" →
      (∃ p ∈ db.profiles, p.employee_id = some (jsTrim e) ∧ p.id ≠ target) →
      (updateEmployeeIdHandler db (some tok) (some caller) (some target)
          employeeId).1.status = 400 ∧
      (updateEmployeeIdHandler db (some tok) (some caller) (some target)
          employeeId).2 = db) ∧
    ((∀ e : String, employeeId = some e → jsTrim e ≠ "" →
        ∀ p ∈ db.profiles, p.employee_id = some (jsTrim e) → p.id = target) →
      (updateEmployeeIdHandler db (some tok) (some caller) (some target)
          employeeId).1.status = 200 ∧
      (updateEmployeeIdHandler db (some tok) (some caller) (some target)
          employeeId).2.profiles =
        db.profiles.map fun p =>
          if p.id == target then { p with employee_id := normalizeEmpId employeeId }
          else p) ∧
    (∀ e : String, employeeId = some e → jsTrim e = "" →
      normalizeEmpId employeeId = none) ∧
    (employeeId = none → normalizeEmpId employeeId = none) := by
  have hg : adminGate db (some tok) (some caller) = .ok caller := by
    simp [adminGate, hadmin]
  have hne : ¬((target == "") = true) := by simp [htarget]
  refine ⟨?_, ?_, ?_, ?_⟩
  · intro e he hblank hex
    subst he
    have he0 : ¬((e == "") = true) := by
      intro h
      exact hblank (by rw [beq_iff_eq.mp h]; rfl)
    have hany : (db.profiles.any fun p =>
        p.employee_id == some (jsTrim e) && p.id != target) = true := by
      obtain ⟨p, hp, hpe, hpid⟩ := hex
      exact List.any_eq_true.mpr ⟨p, hp, by simp [hpe, hpid]⟩
    have hdup : (e != "" && jsTrim e != "" &&
        (db.profiles.any fun p =>
          p.employee_id == some (jsTrim e) && p.id != target)) = true := by
      simp only [Bool.and_eq_true, bne_iff_ne, ne_eq, hany, and_true]
      constructor
      · intro h; exact he0 (by simp [h])
      · intro h; exact hblank h
    simp only [updateEmployeeIdHandler, hg]
    rw [if_neg hne, if_pos hdup]
    exact ⟨rfl, rfl⟩
  · intro hno
    simp only [updateEmployeeIdHandler, hg]
    rw [if_neg hne]
    cases employeeId with
    | none =>
        rw [if_neg (by simp)]
        exact ⟨rfl, rfl⟩
    | some e =>
        have hdup : (e != "" && jsTrim e != "" &&
            (db.profiles.any fun p =>
              p.employee_id == some (jsTrim e) && p.id != target)) = false := by
          by_cases hb : jsTrim e = ""
          · simp [hb]
          · have hany : (db.profiles.any fun p =>
                p.employee_id == some (jsTrim e) && p.id != target) = false := by
              rw [List.any_eq_false]
              intro p hp
              simp only [Bool.and_eq_true, beq_iff_eq, bne_iff_ne, ne_eq, not_and]
              intro hpe hpid
              exact hpid (hno e rfl hb p hp hpe)
            simp [hany]
        rw [if_neg (by simp only [hdup]; simp)]
        exact ⟨rfl, rfl⟩
  · intro e he hb
    subst he
    simp [normalizeEmpId, hb]
  · intro he
    subst he
    rfl

/-- Witness for C6: setting u1 to a padded copy of the admin employee code
EMP0 is rejected with no write; setting u1 to the fresh code EMP9
succeeds. -/
theorem claim_c6_employee_id_uniqueness_witness :
    ((updateEmployeeIdHandler srvDb0 (some "tok") (some "admin1") (some "u1")
        (some " EMP0 ")).1.status = 400 ∧
     (updateEmployeeIdHandler srvDb0 (some "tok") (some "admin1") (some "u1")
        (some " EMP0 ")).2 = srvDb0) ∧
    (updateEmployeeIdHandler srvDb0 (some "tok") (some "admin1") (some "u1")
        (some "EMP9")).1.status = 200 := by
  constructor
  · exact (claim_c6_employee_id_uniqueness srvDb0 "tok" "admin1" "u1" (some " EMP0 ")
      (by decide) (by decide)).1 " EMP0 " rfl (by decide)
      ⟨⟨"admin1", "a@x.com", some "Admin", some "EMP0", none⟩, by decide, by decide, by decide⟩
  · refine ((claim_c6_employee_id_uniqueness srvDb0 "tok" "admin1" "u1" (some "EMP9")
      (by decide) (by decide)).2.1 ?_).1
    intro e he htrim p hp hpe
    cases he
    have hp0 : p ∈ srvDb0.profiles := hp
    simp only [srvDb0, List.mem_cons, List.not_mem_nil, or_false] at hp0
    rcases hp0 with rfl | rfl
    · exact absurd hpe (by decide)
    · exact absurd hpe (by decide)

/-- C7: each of the six privileged handlers responds 401 and leaves the
state unchanged when called without an Authorization header, and responds
403 with the error Admin access required and leaves the state unchanged
when the authenticated caller lacks the admin role. -/
theorem claim_c7_privileged_handler_gate (db : ServerDB) (tok caller : String)
    (c0 u1 r1 u2 e2 u3 p3 f4 l4 emp4 em4 pw4 : Option String)
    (nid : String) (pfail : Bool) (now : Nat)
    (hnadm : srv_has_role db caller "admin" = false) :
    (updateRoleHandler db none c0 u1 r1 =
      (errResp 401 "No authorization header", db)) ∧
    (updateEmployeeIdHandler db none c0 u2 e2 =
      (errResp 401 "No authorization header", db)) ∧
    (updatePasswordHandler db none c0 u3 p3 now =
      (errResp 401 "No authorization header", db)) ∧
    (listUsersHandler db none c0 =
      (errResp 401 "No authorization header", db)) ∧
    (notifyMissingEmpIdHandler db none c0 =
      (errResp 401 "No authorization header", db)) ∧
    (createUserHandler db none c0 f4 l4 emp4 em4 pw4 nid pfail =
      (errResp 401 "No authorization header", db)) ∧
    (updateRoleHandler db (some tok) (some caller) u1 r1 =
      (errResp 403 "Admin access required", db)) ∧
    (updateEmployeeIdHandler db (some tok) (some caller) u2 e2 =
      (errResp 403 "Admin access required", db)) ∧
    (updatePasswordHandler db (some tok) (some caller) u3 p3 now =
      (errResp 403 "Admin access required", db)) ∧
    (listUsersHandler db (some tok) (some caller) =
      (errResp 403 "Admin access required", db)) ∧
    (notifyMissingEmpIdHandler db (some tok) (some caller) =
      (errResp 403 "Admin access required", db)) ∧
    (createUserHandler db (some tok) (some caller) f4 l4 emp4 em4 pw4 nid pfail =
      (errResp 403 "Admin access required", db)) := by
  have hga : adminGate db none c0 = .error (errResp 401 "No authorization header") := rfl
  have hgb : adminGate db (some tok) (some caller) =
      .error (errResp 403 "Admin access required") := by
    simp [adminGate, hnadm]
  exact ⟨by simp [updateRoleHandler, hga], by simp [updateEmployeeIdHandler, hga],
    by simp [updatePasswordHandler, hga], by simp [listUsersHandler, hga],
    by simp [notifyMissingEmpIdHandler, hga], by simp [createUserHandler, hga],
    by simp [updateRoleHandler, hgb], by simp [updateEmployeeIdHandler, hgb],
    by simp [updatePasswordHandler, hgb], by simp [listUsersHandler, hgb],
    by simp [notifyMissingEmpIdHandler, hgb], by simp [createUserHandler, hgb]⟩

/-- Witness for C7: the regular user u1 calling update-role gets the 403
envelope with no state change, and a headerless call of the same handler
gets a 401. -/
theorem claim_c7_privileged_handler_gate_witness :
    (updateRoleHandler srvDb0 none none (some "u1") (some "admin") =
      (errResp 401 "No authorization header", srvDb0)) ∧
    (updateRoleHandler srvDb0 (some "tok") (some "u1") (some "u1") (some "admin") =
      (errResp 403 "Admin access required", srvDb0)) :=
  ⟨(claim_c7_privileged_handler_gate srvDb0 "tok" "u1" none (some "u1") (some "admin")
      none none none none none none none none none "n" false 0 (by decide)).1,
   (claim_c7_privileged_handler_gate srvDb0 "tok" "u1" none (some "u1") (some "admin")
      none none none none none none none none none "n" false 0 (by decide)).2.2.2.2.2.2.1⟩

/-- C10 counterexample: at the execution the claim points to (the back-fill
update fails) the handler still answers 200 success, but the profile row
does carry the requested employee code EMP42, because the signup trigger
copied it from the signup metadata; the same holds when the back-fill
succeeds. -/
theorem claim_c10_counterexample :
    ((createUserHandler srvDb0 (some "tok") (some "admin1") (some "Jane") (some "Doe")
        (some "EMP42") (some "jane@x.com") (some "secret1") "new1" true).1.status = 200 ∧
     (createUserHandler srvDb0 (some "tok") (some "admin1") (some "Jane") (some "Doe")
        (some "EMP42") (some "jane@x.com") (some "secret1") "new1" true).1.success = true ∧
     (createUserHandler srvDb0 (some "tok") (some "admin1") (some "Jane") (some "Doe")
        (some "EMP42") (some "jane@x.com") (some "secret1") "new1" true).2.profiles.filter
        (fun p => p.id == "new1") =
      [{ id := "new1", email := "jane@x.com", display_name := some "Jane",
         employee_id := some "EMP42", password_changed_at := none }]) ∧
    ((createUserHandler srvDb0 (some "tok") (some "admin1") (some "Jane") (some "Doe")
        (some "EMP42") (some "jane@x.com") (some "secret1") "new1" false).2.profiles.filter
        (fun p => p.id == "new1") =
      [{ id := "new1", email := "jane@x.com", display_name := some "Jane",
         employee_id := some "EMP42", password_changed_at := none }]) := by
  decide

/-- C10 amended: whenever the identity-provider creation succeeds (valid
fields, fresh employee code, fresh email), the handler answers 200 with
success and the new user id regardless of whether the profile back-fill
fails, and in either case the stored profile row carries the requested
employee code and display name, because the signup trigger copies them
from the metadata. -/
theorem claim_c10_amended_create_user_success (db : ServerDB) (tok caller : String)
    (fn ln emp em pw nid : String) (pfail : Bool)
    (hadm : srv_has_role db caller "admin" = true)
    (hfn : fn ≠ "") (hln : ln ≠ "") (hemp : emp ≠ "") (hem : em ≠ "")
    (hpw6 : 6 ≤ pw.length)
    (hdup : ∀ p ∈ db.profiles, p.employee_id ≠ some emp)
    (hreg : ∀ u ∈ db.auth_users, u.email ≠ em) :
    (createUserHandler db (some tok) (some caller) (some fn) (some ln) (some emp)
        (some em) (some pw) nid pfail).1.status = 200 ∧
    (createUserHandler db (some tok) (some caller) (some fn) (some ln) (some emp)
        (some em) (some pw) nid pfail).1.success = true ∧
    (createUserHandler db (some tok) (some caller) (some fn) (some ln) (some emp)
        (some em) (some pw) nid pfail).1.userId = some nid ∧
    ∃ p ∈ (createUserHandler db (some tok) (some caller) (some fn) (some ln) (some emp)
        (some em) (some pw) nid pfail).2.profiles,
      p.id = nid ∧ p.employee_id = some emp ∧ p.display_name = some fn := by
  have hg : adminGate db (some tok) (some caller) = .ok caller := by
    simp [adminGate, hadm]
  have hpw0 : pw ≠ "" := by
    intro h
    rw [h] at hpw6
    simp at hpw6
  have htru : (!(jsTruthy (some fn) && jsTruthy (some ln) && jsTruthy (some emp) &&
      jsTruthy (some em) && jsTruthy (some pw))) = false := by
    simp [jsTruthy, hfn, hln, hemp, hem, hpw0]
  have hlen : ¬(pw.length < 6) := by omega
  have hdupb : (db.profiles.any fun p => p.employee_id == some emp) = false := by
    rw [List.any_eq_false]
    intro p hp
    simp [hdup p hp]
  have hregb : (db.auth_users.any fun u => u.email == em) = false := by
    rw [List.any_eq_false]
    intro u hu
    simp [hreg u hu]
  simp only [createUserHandler, hg, htru, Bool.false_eq_true, if_false]
  rw [if_neg hlen, if_neg (by rw [hdupb]; simp), if_neg (by rw [hregb]; simp)]
  refine ⟨rfl, rfl, rfl, ?_⟩
  cases pfail with
  | true =>
      refine ⟨handle_new_user nid em (some fn) (some fn) (some emp), ?_, rfl, rfl, ?_⟩
      · simp
      · simp [handle_new_user]
  | false =>
      refine ⟨{ handle_new_user nid em (some fn) (some fn) (some emp) with
          display_name := some fn, employee_id := some emp }, ?_, rfl, rfl, rfl⟩
      simp only [if_false]
      refine List.mem_map.mpr ⟨handle_new_user nid em (some fn) (some fn) (some emp), ?_, ?_⟩
      · simp
      · simp [handle_new_user]

/-- Witness for the amended C10: creating Jane with employee code EMP42
while the back-fill fails still answers 200 success with the new id, and
the profile row carries EMP42. -/
theorem claim_c10_amended_create_user_success_witness :
    (createUserHandler srvDb0 (some "tok") (some "admin1") (some "Jane") (some "Doe")
        (some "EMP42") (some "jane@x.com") (some "secret1") "new1" true).1.status = 200 ∧
    (createUserHandler srvDb0 (some "tok") (some "admin1") (some "Jane") (some "Doe")
        (some "EMP42") (some "jane@x.com") (some "secret1") "new1" true).1.success = true ∧
    (createUserHandler srvDb0 (some "tok") (some "admin1") (some "Jane") (some "Doe")
        (some "EMP42") (some "jane@x.com") (some "secret1") "new1" true).1.userId = some "new1" ∧
    ∃ p ∈ (createUserHandler srvDb0 (some "tok") (some "admin1") (some "Jane") (some "Doe")
        (some "EMP42") (some "jane@x.com") (some "secret1") "new1" true).2.profiles,
      p.id = "new1" ∧ p.employee_id = some "EMP42" ∧ p.display_name = some "Jane" :=
  claim_c10_amended_create_user_success srvDb0 "tok" "admin1" "Jane" "Doe" "EMP42"
    "jane@x.com" "secret1" "new1" true (by decide) (by decide) (by decide) (by decide)
    (by decide) (by decide) (by decide) (by decide)

/-- One in-progress row of the WeeklyTimesheetForm: client-generated id,
project, free-text description, and a day-to-hours map (a JavaScript
object keyed by ISO day strings). -/
structure WeeklyEntry where
  id : String
  project : String
  description : String
  hours : List (String × Rat)
deriving DecidableEq, Repr

/-- The SavedDraft record the weekly form persists: the rows plus the
week-start key they belong to. -/
structure SavedDraft where
  entries : List WeeklyEntry
  weekStart : String
deriving DecidableEq, Repr

/-- JSON values: the tree JSON.stringify writes to local storage and
JSON.parse reads back. -/
inductive Json where
  | jnull : Json
  | jbool (b : Bool) : Json
  | jnum (q : Rat) : Json
  | jstr (s : String) : Json
  | jarr (xs : List Json) : Json
  | jobj (fields : List (String × Json)) : Json

/-- Serialization of the hours map. -/
def encodeHours (hs : List (String × Rat)) : Json :=
  .jobj (hs.map fun kv => (kv.1, .jnum kv.2))

/-- Serialization of one weekly row. -/
def encodeEntry (e : WeeklyEntry) : Json :=
  .jobj [("id", .jstr e.id), ("project", .jstr e.project),
         ("description", .jstr e.description), ("hours", encodeHours e.hours)]

/-- Serialization of the draft record. -/
def encodeDraft (d : SavedDraft) : Json :=
  .jobj [("entries", .jarr (d.entries.map encodeEntry)),
         ("weekStart", .jstr d.weekStart)]

/-- Field access on a parsed JSON object. -/
def getField (fields : List (String × Json)) (k : String) : Option Json :=
  (fields.find? fun kv => kv.1 == k).map Prod.snd

/-- Parsing the hours map back: every field must be numeric. -/
def decodeHoursList : List (String × Json) → Option (List (String × Rat))
  | [] => some []
  | kv :: rest =>
      match kv.2 with
      | .jnum q => (decodeHoursList rest).map fun tl => (kv.1, q) :: tl
      | _ => none

/-- Parsing one weekly row back from JSON. -/
def decodeEntry (j : Json) : Option WeeklyEntry :=
  match j with
  | .jobj fields =>
      match getField fields "id", getField fields "project",
          getField fields "description", getField fields "hours" with
      | some (.jstr i), some (.jstr p), some (.jstr d), some (.jobj hs) =>
          (decodeHoursList hs).map fun l => ⟨i, p, d, l⟩
      | _, _, _, _ => none
  | _ => none

/-- Parsing a list of weekly rows back from JSON. -/
def decodeEntriesList : List Json → Option (List WeeklyEntry)
  | [] => some []
  | j :: rest =>
      match decodeEntry j with
      | some e => (decodeEntriesList rest).map fun tl => e :: tl
      | none => none

/-- Parsing the draft record back from JSON. -/
def decodeDraft (j : Json) : Option SavedDraft :=
  match j with
  | .jobj fields =>
      match getField fields "entries", getField fields "weekStart" with
      | some (.jarr es), some (.jstr w) =>
          (decodeEntriesList es).map fun l => ⟨l, w⟩
      | _, _ => none
  | _ => none

/-- Round trip of the hours map through JSON. -/
theorem decodeHoursList_encode (hs : List (String × Rat)) :
    decodeHoursList (hs.map fun kv => (kv.1, Json.jnum kv.2)) = some hs := by
  induction hs with
  | nil => rfl
  | cons kv rest ih => simp [decodeHoursList, ih]

/-- Round trip of one weekly row through JSON. -/
theorem decodeEntry_encode (e : WeeklyEntry) :
    decodeEntry (encodeEntry e) = some e := by
  simp [decodeEntry, encodeEntry, getField, encodeHours, List.find?,
    decodeHoursList_encode]

/-- Round trip of a list of weekly rows through JSON. -/
theorem decodeEntriesList_encode (es : List WeeklyEntry) :
    decodeEntriesList (es.map encodeEntry) = some es := by
  induction es with
  | nil => rfl
  | cons e rest ih => simp [decodeEntriesList, decodeEntry_encode, ih]

/-- Round trip of the draft record through JSON. -/
theorem decodeDraft_encode (d : SavedDraft) :
    decodeDraft (encodeDraft d) = some d := by
  simp [decodeDraft, encodeDraft, getField, List.find?, decodeEntriesList_encode]

/-- Local storage: key-to-serialized-value bindings. -/
abbrev LocalStorage := List (String × Json)

/-- localStorage.getItem. -/
def getItem (st : LocalStorage) (k : String) : Option Json :=
  (st.find? fun kv => kv.1 == k).map Prod.snd

/-- localStorage.setItem: replace the binding for one key. -/
def setItem (st : LocalStorage) (k : String) (v : Json) : LocalStorage :=
  (k, v) :: st.filter fun kv => !(kv.1 == k)

/-- localStorage.removeItem. -/
def removeItem (st : LocalStorage) (k : String) : LocalStorage :=
  st.filter fun kv => !(kv.1 == k)

/-- The draft key constant of WeeklyTimesheetForm. -/
def DRAFT_STORAGE_KEY : String := "timesheet_draft"

/-- The per-week storage key: the constant, an underscore and the week
key (the formatted Monday of the displayed week). -/
def draftKey (weekKey : String) : String := DRAFT_STORAGE_KEY ++ "_" ++ weekKey

/-- saveDraft of WeeklyTimesheetForm: store the current rows, serialized
with the week key, under the per-week key. -/
def saveDraft (st : LocalStorage) (weekKey : String) (entries : List WeeklyEntry) :
    LocalStorage :=
  setItem st (draftKey weekKey) (encodeDraft ⟨entries, weekKey⟩)

/-- loadDraft of WeeklyTimesheetForm: read the per-week key; a stored draft
with at least one row installs those rows; an absent key, an undecodable
value, or a draft with no rows resets to one fresh empty row (JSON.parse of
a stringify output never throws, so the catch branch that would keep the
current rows is unreachable in this flow). -/
def loadDraft (st : LocalStorage) (weekKey : String) (freshId : String) :
    List WeeklyEntry :=
  match getItem st (draftKey weekKey) with
  | some j =>
      match decodeDraft j with
      | some d => if 0 < d.entries.length then d.entries else [⟨freshId, "", "", []⟩]
      | none => [⟨freshId, "", "", []⟩]
  | none => [⟨freshId, "", "", []⟩]

/-- clearDraft of WeeklyTimesheetForm. -/
def clearDraft (st : LocalStorage) (weekKey : String) : LocalStorage :=
  removeItem st (draftKey weekKey)

/-- getTotalHours of WeeklyTimesheetForm: the sum of the day values of one
row. -/
def getTotalHours (e : WeeklyEntry) : Rat :=
  e.hours.foldl (fun s kv => s + kv.2) 0

/-- The valid-entries filter of onSubmit: rows with a project selected and
positive total hours. -/
def validEntries (entries : List WeeklyEntry) : List WeeklyEntry :=
  entries.filter fun e => e.project != "" && decide (0 < getTotalHours e)

/-- The per-day rows onSubmit builds: one (project, day, hours) triple per
positive day value of each valid row. -/
def submitRows (entries : List WeeklyEntry) : List (String × String × Rat) :=
  (validEntries entries).foldr (fun e acc =>
    ((e.hours.filter fun kv => decide (0 < kv.2)).map
      fun kv => (e.project, kv.1, kv.2)) ++ acc) []

/-- onSubmit of WeeklyTimesheetForm, the draft-relevant behavior: it
requires the profile display name and employee id, requires at least one
valid row and at least one positive per-day value, inserts one
(project, day, hours) row per positive day value, and removes the
per-week draft key only after a successful insert. -/
def onSubmit (st : LocalStorage) (weekKey : String) (entries : List WeeklyEntry)
    (profileName profileEmpId : Option String) :
    Option (List (String × String × Rat)) × LocalStorage :=
  if !(jsTruthy profileName) || !(jsTruthy profileEmpId) then (none, st)
  else if (validEntries entries).isEmpty then (none, st)
  else if (submitRows entries).isEmpty then (none, st)
  else (some (submitRows entries), clearDraft st weekKey)

/-- Day-of-week index with Monday 0 (1970-01-01, day number 0, was a
Thursday). -/
def dayOfWeekMon (d : Nat) : Nat := (d + 3) % 7

/-- date-fns startOfWeek with weekStartsOn Monday, on day numbers: step
back to the Monday of the week. -/
def startOfWeekMonday (d : Nat) : Nat := d - (d + 3) % 7

/-- Gregorian civil date (year, month, day) of a day number. -/
def civilFromDays (d : Nat) : Nat × Nat × Nat :=
  let z := d + 719468
  let era := z / 146097
  let doe := z % 146097
  let yoe := (doe - doe / 1460 + doe / 36524 - doe / 146096) / 365
  let y := yoe + era * 400
  let doy := doe - (365 * yoe + yoe / 4 - yoe / 100)
  let mp := (5 * doy + 2) / 153
  let day := doy - (153 * mp + 2) / 5 + 1
  let m := if mp < 10 then mp + 3 else mp - 9
  (if m ≤ 2 then y + 1 else y, m, day)

/-- Two-digit zero padding. -/
def pad2 (n : Nat) : String :=
  if n < 10 then "0" ++ toString n else toString n

/-- date-fns format yyyy-MM-dd on a day number. -/
def formatYMD (d : Nat) : String :=
  let c := civilFromDays d
  toString c.1 ++ "-" ++ pad2 c.2.1 ++ "-" ++ pad2 c.2.2

/-- The week key of the displayed week: the ISO date of its Monday. -/
def weekKeyOf (today : Nat) : String := formatYMD (startOfWeekMonday today)

/-- Helper: the Monday the week key names has day-of-week index 0 (for any
day at least 6, that is on or after 1970-01-07). -/
theorem startOfWeekMonday_isMonday (d : Nat) (h : 6 ≤ d) :
    dayOfWeekMon (startOfWeekMonday d) = 0 := by
  unfold dayOfWeekMon startOfWeekMonday
  have hlt : (d + 3) % 7 < 7 := Nat.mod_lt _ (by norm_num)
  have hdm := Nat.div_add_mod (d + 3) 7
  have heq : d - (d + 3) % 7 + 3 = 7 * ((d + 3) / 7) := by omega
  rw [heq, Nat.mul_mod_right]

/-- Helper: reading back the key just written. -/
theorem getItem_setItem_self (st : LocalStorage) (k : String) (v : Json) :
    getItem (setItem st k v) k = some v := by
  simp [getItem, setItem, List.find?]

/-- Helper: writing one key leaves every other key unchanged. -/
theorem getItem_setItem_ne (st : LocalStorage) (key k : String) (v : Json)
    (h : k ≠ key) :
    getItem (setItem st key v) k = getItem st k := by
  unfold getItem setItem
  have hk : ¬((key == k) = true) := by simp [Ne.symm h]
  rw [List.find?_cons_of_neg (p := fun (kv : String × Json) => kv.1 == k) _ hk]
  congr 1
  induction st with
  | nil => rfl
  | cons a rest ih =>
      by_cases ha : a.1 = key
      · have h1 : ¬((!(a.1 == key)) = true) := by simp [ha]
        have h2 : ¬((a.1 == k) = true) := by simp [ha, Ne.symm h]
        rw [List.filter_cons_of_neg (p := fun (kv : String × Json) => !(kv.1 == key)) h1,
          List.find?_cons_of_neg (p := fun (kv : String × Json) => kv.1 == k) _ h2, ih]
      · have h1 : (!(a.1 == key)) = true := by simp [ha]
        rw [List.filter_cons_of_pos (p := fun (kv : String × Json) => !(kv.1 == key)) h1]
        by_cases hak : (a.1 == k) = true
        · rw [List.find?_cons_of_pos (p := fun (kv : String × Json) => kv.1 == k) _ hak,
            List.find?_cons_of_pos (p := fun (kv : String × Json) => kv.1 == k) _ hak]
        · rw [List.find?_cons_of_neg (p := fun (kv : String × Json) => kv.1 == k) _ hak,
            List.find?_cons_of_neg (p := fun (kv : String × Json) => kv.1 == k) _ hak, ih]

/-- Helper: a removed key reads back as absent. -/
theorem getItem_removeItem_self (st : LocalStorage) (k : String) :
    getItem (removeItem st k) k = none := by
  unfold getItem removeItem
  have hfind : (st.filter fun kv => !(kv.1 == k)).find? (fun kv => kv.1 == k) = none := by
    rw [List.find?_eq_none]
    intro kv hkv
    have := List.of_mem_filter hkv
    simp at this
    simp [this]
  rw [hfind]
  rfl

/-- Helper: loading right after saving yields the saved rows, for any
nonempty row list and any week key. -/
theorem loadDraft_saveDraft_roundtrip (st : LocalStorage) (w : String)
    (entries : List WeeklyEntry) (freshId : String) (hne : entries ≠ []) :
    loadDraft (saveDraft st w entries) w freshId = entries := by
  unfold loadDraft saveDraft
  rw [getItem_setItem_self]
  simp only [decodeDraft_encode]
  rw [if_pos (List.length_pos.mpr hne)]

/-- C9: for a displayed week, saving a draft stores the serialized rows
under exactly the key timesheet_draft_ followed by the ISO date of the
week Monday, touching no other key; loading the draft for that week
returns the saved rows unchanged; and a successful submission of that week
removes the key. -/
theorem claim_c9_draft_persistence (st : LocalStorage) (today : Nat)
    (entries : List WeeklyEntry) (freshId : String)
    (profileName profileEmpId : Option String)
    (hne : entries ≠ []) (hd : 6 ≤ today) :
    (getItem (saveDraft st (weekKeyOf today) entries) (draftKey (weekKeyOf today)) =
        some (encodeDraft ⟨entries, weekKeyOf today⟩) ∧
      draftKey (weekKeyOf today) =
        "timesheet_draft_" ++ formatYMD (startOfWeekMonday today) ∧
      dayOfWeekMon (startOfWeekMonday today) = 0 ∧
      ∀ k, k ≠ draftKey (weekKeyOf today) →
        getItem (saveDraft st (weekKeyOf today) entries) k = getItem st k) ∧
    loadDraft (saveDraft st (weekKeyOf today) entries) (weekKeyOf today) freshId =
      entries ∧
    (∀ rows st2,
      onSubmit (saveDraft st (weekKeyOf today) entries) (weekKeyOf today) entries
          profileName profileEmpId = (some rows, st2) →
      getItem st2 (draftKey (weekKeyOf today)) = none) := by
  refine ⟨⟨getItem_setItem_self st _ _, ?_, startOfWeekMonday_isMonday today hd, ?_⟩, ?_, ?_⟩
  · show (DRAFT_STORAGE_KEY ++ "_") ++ weekKeyOf today = "timesheet_draft_" ++ _
    rfl
  · intro k hk
    exact getItem_setItem_ne st (draftKey (weekKeyOf today)) k _ hk
  · exact loadDraft_saveDraft_roundtrip st (weekKeyOf today) entries freshId hne
  · intro rows st2 h
    unfold onSubmit at h
    split at h
    · simp at h
    · split at h
      · simp at h
      · split at h
        · simp at h
        · rw [Prod.mk.injEq] at h
          rw [← h.2]
          exact getItem_removeItem_self _ _

/-- Concrete weekly rows for the C9 witness. -/
def entries0 : List WeeklyEntry :=
  [⟨"e1", "Alpha", "dev work", [("2024-01-08", (8 : Rat))]⟩]

/-- Witness for C9: on 2024-01-10 (day 19732, a Wednesday) the week key is
2024-01-08, the Monday; the saved rows round-trip; and a successful submit
removes the key. -/
theorem claim_c9_draft_persistence_witness :
    entries0 ≠ [] ∧
    6 ≤ 19732 ∧
    formatYMD (startOfWeekMonday 19732) = "2024-01-08" ∧
    loadDraft (saveDraft [] (weekKeyOf 19732) entries0) (weekKeyOf 19732) "f1" =
      entries0 ∧
    (∀ rows st2,
      onSubmit (saveDraft [] (weekKeyOf 19732) entries0) (weekKeyOf 19732) entries0
          (some "Owner") (some "EMP1") = (some rows, st2) →
      getItem st2 (draftKey (weekKeyOf 19732)) = none) := by
  have h := claim_c9_draft_persistence [] 19732 entries0 "f1"
    (some "Owner") (some "EMP1") (by decide) (by decide)
  exact ⟨by decide, by decide, by decide, h.2.1, h.2.2⟩

/-- C1: for every timesheet row and caller, (a) a caller who is neither
admin nor a department head for the row can select, update and delete the
row exactly when they own it; (b) an admin caller can select, update and
delete every row; (c) a department-head caller for the row who is not admin
and not the owner can select and update but not delete the row. -/
theorem claim_c1_rls_timesheet_access (db : AuthDB) (uid : String) (t : Timesheet) :
    (has_role db uid "admin" = false → is_project_hod db uid t.project = false →
      ((canSelectTimesheet db uid t = true ↔ t.user_id = uid) ∧
       (canUpdateTimesheet db uid t = true ↔ t.user_id = uid) ∧
       (canDeleteTimesheet db uid t = true ↔ t.user_id = uid))) ∧
    (has_role db uid "admin" = true →
      (canSelectTimesheet db uid t = true ∧
       canUpdateTimesheet db uid t = true ∧
       canDeleteTimesheet db uid t = true)) ∧
    (is_project_hod db uid t.project = true → has_role db uid "admin" = false →
      t.user_id ≠ uid →
      (canSelectTimesheet db uid t = true ∧
       canUpdateTimesheet db uid t = true ∧
       canDeleteTimesheet db uid t = false)) := by
  refine ⟨fun hadm hhod => ?_, fun hadm => ?_, fun hhod hadm hown => ?_⟩
  · simp [canSelectTimesheet, canUpdateTimesheet, canDeleteTimesheet, hadm, hhod,
      eq_comm (a := uid)]
  · simp [canSelectTimesheet, canUpdateTimesheet, canDeleteTimesheet, hadm]
  · simp [canSelectTimesheet, canUpdateTimesheet, canDeleteTimesheet, hadm, hhod]
    exact fun h => absurd h.symm hown

/-- Concrete database for witnesses: one admin, one department head of the
project named Alpha, one regular owner, and one timesheet row on Alpha. -/
def db0 : AuthDB :=
  { user_roles := [⟨"admin1", "admin"⟩, ⟨"hod1", "hod"⟩, ⟨"owner1", "user"⟩]
  , projects := [⟨"p1", "Alpha"⟩]
  , project_hods := [⟨"p1", "hod1"⟩] }

/-- Concrete timesheet row for witnesses: owned by owner1 on project Alpha. -/
def ts0 : Timesheet :=
  { id := "t1", user_id := "owner1", name := "Owner One", employee_id := "EMP1"
  , project := "Alpha", hours := 8, start_date := 19731, end_date := 19731
  , status := "pending", reviewed_by := none, reviewed_at := none
  , description := none }

/-- Witness for C1: the department head hod1 of project Alpha is not admin
and not the owner of ts0, and indeed can select and update but not delete,
while the admin can do all three. -/
theorem claim_c1_rls_timesheet_access_witness :
    is_project_hod db0 "hod1" ts0.project = true ∧
    has_role db0 "hod1" "admin" = false ∧
    ts0.user_id ≠ "hod1" ∧
    (canSelectTimesheet db0 "hod1" ts0 = true ∧
     canUpdateTimesheet db0 "hod1" ts0 = true ∧
     canDeleteTimesheet db0 "hod1" ts0 = false) ∧
    (canSelectTimesheet db0 "admin1" ts0 = true ∧
     canUpdateTimesheet db0 "admin1" ts0 = true ∧
     canDeleteTimesheet db0 "admin1" ts0 = true) :=
  ⟨by decide, by decide, by decide,
   (claim_c1_rls_timesheet_access db0 "hod1" ts0).2.2 (by decide) (by decide) (by decide),
   (claim_c1_rls_timesheet_access db0 "admin1" ts0).2.1 (by decide)⟩

end Timekeeper
